import Mathlib

/-!
Shallow embedding of src/anthroscore/get_anthroscore.py.

The script extracts sentences in which a target entity occurs as the root of a
noun phrase with dependency role nsubj or dobj, masks the noun phrase, asks a
masked-language model for the probability of a fixed list of pronoun tokens at
the masked position, and scores each sentence by the log-ratio of the
human-pronoun probability mass to the non-human-pronoun probability mass.

External dependencies (the spacy parser and the RoBERTa model/tokenizer) are
modelled as abstract functions supplied as parameters; everything the script
itself computes (string handling, regex word-boundary matching, slicing and
windowing arithmetic, aggregation, argument checks) is embedded directly from
the source.  Machine floats are modelled as real numbers.
-/

namespace AnthroScore

/-! Python string and list primitives used by the script. -/

/-- Python slice-index normalisation for a sequence of length len: a negative
index counts from the end (clamped below at 0), a non-negative index is
clamped above at len. -/
def pyIndex (len : Nat) (i : Int) : Nat :=
  if i < 0 then (i + len).toNat else min i.toNat len

/-- Python slice l[a:b] with step 1, including negative-index wrap-around. -/
def pySlice (l : List α) (a b : Int) : List α :=
  (l.drop (pyIndex l.length a)).take (pyIndex l.length b - pyIndex l.length a)

/-- Python s[-4:], as used by the assertions in main (lines 128-129). -/
def sliceLast4 (s : String) : String :=
  String.mk (pySlice s.data (-4) (s.data.length : Int))

/-- ASCII lower-casing of one character, as Python str.lower acts on
ASCII text (the script lower-cases parser output and lemmas). -/
def lowerChar (c : Char) : Char :=
  if 'A' ≤ c ∧ c ≤ 'Z' then Char.ofNat (c.toNat + 32) else c

/-- Python str.lower restricted to ASCII text. -/
def pyLower (s : String) : String := String.mk (s.data.map lowerChar)

/-- Python str.strip(chars): remove all leading and trailing characters that
belong to the character set cs (line 104 calls strip with the two-character
set backslash, b). -/
def pyStripChars (s : String) (cs : List Char) : String :=
  String.mk (((s.data.dropWhile (· ∈ cs)).reverse.dropWhile (· ∈ cs)).reverse)

/-- Whether the first list occurs at the very start of the second. -/
def leadsWith : List Char → List Char → Bool
  | [], _ => true
  | _ :: _, [] => false
  | p :: ps, c :: cs => p == c && leadsWith ps cs

/-- Fuel-driven worker for pyReplace; with fuel at least the length of the
text and a nonempty pattern it implements Python str.replace exactly:
every non-overlapping occurrence is replaced, scanning left to right. -/
def pyReplaceAux (old new : List Char) : Nat → List Char → List Char
  | _, [] => []
  | 0, l => l
  | fuel + 1, c :: rest =>
    if leadsWith old (c :: rest) then
      new ++ pyReplaceAux old new fuel ((c :: rest).drop old.length)
    else
      c :: pyReplaceAux old new fuel rest

/-- Python str.replace(old, new) for nonempty old: replaces every
non-overlapping occurrence (source line 103). -/
def pyReplace (s old new : String) : String :=
  String.mk (pyReplaceAux old.data new.data s.data.length s.data)

/-- Worker for specReplaceFirst. -/
def replaceFirstAux (old new : List Char) : List Char → List Char
  | [] => []
  | c :: rest =>
    if leadsWith old (c :: rest) then new ++ (c :: rest).drop old.length
    else c :: replaceFirstAux old new rest

/-- Modelled from the spec's words, for comparison with pyReplace (claim C4):
substitution of the first textual occurrence only. -/
def specReplaceFirst (s old new : String) : String :=
  String.mk (replaceFirstAux old.data new.data s.data)

/-! Word-boundary regex matching.  The script builds the pattern
backslash-b entity backslash-b (line 85) and runs re.findall on the
lower-cased noun-phrase text (line 101).  For a literal entity string this is
exactly: an occurrence of the entity with a regex word boundary on each side,
where a word character is an ASCII letter, digit or underscore. -/

/-- ASCII regex word character. -/
def isWordChar (c : Char) : Bool :=
  ('a' ≤ c && c ≤ 'z') || ('A' ≤ c && c ≤ 'Z') || ('0' ≤ c && c ≤ '9') || c == '_'

/-- Whether position i of the text holds a word character (out of range
counts as non-word). -/
def wordAt (txt : List Char) (i : Nat) : Bool :=
  match txt.get? i with
  | some c => isWordChar c
  | none => false

/-- Regex word boundary at position i: the word-character status changes
between positions i-1 and i (a position before the start counts non-word). -/
def boundaryAt (txt : List Char) (i : Nat) : Bool :=
  (decide (i ≠ 0) && wordAt txt (i - 1)) != wordAt txt i

/-- The pattern matches the text at position i. -/
def reWordMatchAt (e txt : List Char) (i : Nat) : Bool :=
  leadsWith e (txt.drop i) && boundaryAt txt i && boundaryAt txt (i + e.length)

/-- re.findall of the word-boundary pattern of a literal entity e on txt is
nonempty: some position of txt matches. -/
def reWordMatch (e txt : String) : Bool :=
  (List.range (txt.data.length + 1)).any (reWordMatchAt e.data txt.data)

/-! The fixed pronoun vocabulary. -/

/-- The fixed pronoun list of get_prediction and get_anthroscore
(source lines 41 and 71), in the source's order. -/
def terms : List String :=
  ["you", "we", "us", "he", "she", "her", "him", "You", "We", "Us", "He",
   "She", "Her", "I", "i", "it", "its", "It", "Its"]

/-! Data model of the sentence extractor (parse_sentences_from_file).
The spacy pipeline is external; its output for one text is modelled as a
Doc value, and the pipeline itself as an abstract function String → Doc. -/

/-- One noun-phrase chunk of a parsed sentence, with the attributes the
script reads from it. -/
structure NounChunk where
  text : String
  rootDepStr : String
  rootDepId : Nat
  headLemma : String
deriving DecidableEq

/-- One parser sentence: its text and its noun chunks. -/
structure ParsedSentence where
  text : String
  chunks : List NounChunk
deriving DecidableEq

/-- Parser output for one input text. -/
structure Doc where
  sents : List ParsedSentence
deriving DecidableEq

/-- One row of the input table: the text-column cell (none models a missing
value removed by dropna) and the id-column cell. -/
structure Row where
  text : Option String
  idValue : String
deriving DecidableEq

/-- One emitted Sentence Match, the row schema of line 84.  The POS column
stores the integer dependency-label id, since line 104 writes
noun_chunk.root.dep (the spacy integer attribute, not the string dep_). -/
structure SentenceMatch where
  sentence : String
  masked_sentence : String
  text_id : String
  pos : Nat
  verb : String
  original_term : String
  original_noun : String
deriving DecidableEq

/-- The mask placeholder substituted into the sentence (line 103). -/
def maskToken : String := "<mask>"

/-- Line 85: the word-boundary pattern built for one entity. -/
def mkPattern (e : String) : String := "\\b" ++ e ++ "\\b"

/-- Line 104: the original_term column, the pattern with all leading and
trailing characters in the set backslash, b stripped. -/
def originalTermOf (e : String) : String :=
  pyStripChars (mkPattern e) ['\\', 'b']

/-- Line 101: the entity pattern matches the lower-cased chunk text. -/
def chunkMatches (e : String) (c : NounChunk) : Bool :=
  reWordMatch e (pyLower c.text)

/-- Lines 102-104: the record appended for one matching (chunk, entity)
pair within one sentence. -/
def mkMatch (sentText textId : String) (c : NounChunk) (e : String) : SentenceMatch :=
  { sentence := sentText
    masked_sentence := pyReplace sentText c.text maskToken
    text_id := textId
    pos := c.rootDepId
    verb := pyLower c.headLemma
    original_term := originalTermOf e
    original_noun := pyLower c.text }

/-- Lines 99-104: the records one noun chunk contributes: nothing unless its
dependency role is nsubj or dobj, else one record per matching entity
pattern, in entity-list order. -/
def chunkRecords (entities : List String) (sentText textId : String)
    (c : NounChunk) : List SentenceMatch :=
  if c.rootDepStr = "nsubj" ∨ c.rootDepStr = "dobj" then
    (entities.filter (fun e => chunkMatches e c)).map (mkMatch sentText textId c)
  else []

/-- Lines 98-104: all records of one parsed sentence. -/
def sentRecords (entities : List String) (textId : String)
    (s : ParsedSentence) : List SentenceMatch :=
  (s.chunks.map (chunkRecords entities s.text textId)).flatten

/-- Python truthiness of text.strip() at line 95: the text has some
non-whitespace character. -/
def pyTruthyStrip (t : String) : Bool :=
  t.data.any (fun c => !c.isWhitespace)

/-- Lines 89-104: the records of one input row.  A missing text cell is
dropped (dropna at line 87); a blank text is skipped (line 95); the text id
is the id-column cell when an id column name was supplied, else the input
file name (lines 91-94). -/
def rowRecords (nlp : String → Doc) (entities : List String)
    (inputFilename idColumnName : String) (r : Row) : List SentenceMatch :=
  match r.text with
  | none => []
  | some t =>
    let textId := if idColumnName.length > 0 then r.idValue else inputFilename
    if pyTruthyStrip t then
      (((nlp t).sents).map (sentRecords entities textId)).flatten
    else []

/-- Lines 83-107: the full extraction, one record list in emission order. -/
def parse_sentences_from_file (nlp : String → Doc) (entities : List String)
    (inputFilename idColumnName : String) (rows : List Row) : List SentenceMatch :=
  (rows.map (rowRecords nlp entities inputFilename idColumnName)).flatten

/-! The anthropomorphism scorer (get_prediction, get_anthroscore, main). -/

/-- The RoBERTa mask token id used by the comparisons at lines 44, 49, 57. -/
def maskTokenId : Nat := 50264

/-- The external masked-language model and tokenizer: an encoder from the
sentence to its token-id sequence, the vocabulary lookup, and the softmax
probability of a vocabulary id at a given position of a token sequence. -/
structure MaskedLM where
  encode : String → List Nat
  vocabId : String → Nat
  probAt : List Nat → Nat → Nat → ℝ

/-- Lines 44-46: the first position of the mask token in a token sequence
(nonzero() lists all positions, [0] takes the first; none models the
IndexError when there is no mask). -/
def firstMaskPos (l : List Nat) : Option Nat :=
  l.findIdx? (· == maskTokenId)

/-- Lines 60-67: the probability of each pronoun of terms at the masked
position, in the order of terms. -/
def scoresAt (M : MaskedLM) (tokenIds : List Nat) (maskedPos : Nat) : List ℝ :=
  terms.map (fun t => M.probAt tokenIds maskedPos (M.vocabId t))

/-- Lines 51-54: the recentering window.  When maskPos + 256 exceeds the
sequence length the code takes the last 512 tokens, otherwise the Python
slice from maskPos - 256 to maskPos + 256 (negative start indices wrap
around, per Python slice semantics). -/
def recenterWindow (temp : List Nat) (maskPos : Nat) : List Nat :=
  if maskPos + 256 > temp.length then
    pySlice temp (-512) (temp.length : Int)
  else
    pySlice temp ((maskPos : Int) - 256) ((maskPos : Int) + 256)

/-- The Python exceptions the embedded code can surface. -/
inductive PyErr
  | indexError
  | runtimeError
  | assertionError
deriving DecidableEq

/-- Lines 40-68, get_prediction.  The uninit parameter models np.empty: an
array of the requested length with unspecified contents.  When the mask is
found, score it (lines 60-68).  Otherwise the except branch re-encodes the
same sentence (line 48): if the mask is again absent, the subscript at
line 51 raises IndexError, caught at line 55, returning np.empty (line 56);
if the mask were present, the window of lines 52-54 is taken, the reshape
fails with an uncaught RuntimeError unless it holds exactly 512 tokens, and
an absent mask in the window makes line 58 raise an uncaught IndexError. -/
def get_prediction (M : MaskedLM) (uninit : Nat → List ℝ) (sent : String) :
    Except PyErr (List ℝ) :=
  match firstMaskPos (M.encode sent) with
  | some masked_pos => Except.ok (scoresAt M (M.encode sent) masked_pos)
  | none =>
    match firstMaskPos (M.encode sent) with
    | none => Except.ok (uninit terms.length)
    | some mp =>
      let win := recenterWindow (M.encode sent) mp
      if win.length = 512 then
        match firstMaskPos win with
        | some mp2 => Except.ok (scoresAt M win mp2)
        | none => Except.error PyErr.indexError
      else Except.error PyErr.runtimeError

/-- The value get_prediction actually returns: the scores at the first mask
position when there is one, np.empty of the terms length otherwise. -/
def predOk (M : MaskedLM) (uninit : Nat → List ℝ) (sent : String) : List ℝ :=
  match firstMaskPos (M.encode sent) with
  | some masked_pos => scoresAt M (M.encode sent) masked_pos
  | none => uninit terms.length

/-- Lines 70-81, get_anthroscore: the result matrix is seeded with one
np.empty row of the terms length (line 73), then one prediction row is
stacked per masked sentence, in order. -/
def get_anthroscore (M : MaskedLM) (uninit : Nat → List ℝ)
    (maskedSentences : List String) : Except PyErr (List (List ℝ)) :=
  maskedSentences.foldlM
    (fun acc x => (get_prediction M uninit x).map (fun nr => acc ++ [nr]))
    [uninit terms.length]

/-- Line 146: per row, the sum of the first 15 columns. -/
def humanSum (v : List ℝ) : ℝ := (v.take 15).sum

/-- Line 147: per row, the sum of the remaining columns from index 15 on. -/
def nonhumanSum (v : List ℝ) : ℝ := (v.drop 15).sum

/-- Line 148: the anthroscore of one probability row. -/
noncomputable def rowScore (v : List ℝ) : ℝ :=
  Real.log (humanSum v) - Real.log (nonhumanSum v)

/-- Lines 146-148: the appended anthroscore column: the seed row of the
stacked matrix is dropped (the slices start at index 1) and each remaining
row is scored. -/
noncomputable def mainScores (stack : List (List ℝ)) : List ℝ :=
  (stack.drop 1).map rowScore

/-- Lines 118, 124-129 of main.  The --output_file argument has argparse
default the empty string, so the parsed Python value is a string and never
None; the branch deriving input_parsed.csv (lines 126-127) fires only on
None and is therefore dead.  Then the two extension assertions run. -/
def mainOutputPath (input_file : String) (cliOutput : Option String) :
    Except PyErr String :=
  let parsed : Option String := some (cliOutput.getD "")
  let output_file : String :=
    match parsed with
    | none => (input_file.splitOn ".").headD "" ++ "_parsed.csv"
    | some s => s
  if sliceLast4 input_file = ".csv" then
    if sliceLast4 output_file = ".csv" then Except.ok output_file
    else Except.error PyErr.assertionError
  else Except.error PyErr.assertionError

/-! Helper lemmas. -/

/-- An in-range getD is a member of the slice (drop s).take k whenever its
index lands inside the slice. -/
lemma getD_mem_drop_take (l : List α) (s k i : Nat) (d : α)
    (hi : i < l.length) (hs : s ≤ i) (hk : i - s < k) :
    l.getD i d ∈ (l.drop s).take k := by
  have hj : i - s < (l.drop s).length := by
    rw [List.length_drop]; omega
  have hjk : i - s < ((l.drop s).take k).length := by
    rw [List.length_take]; omega
  have e4 : l.getD i d = l[i] := by
    rw [List.getD_eq_getElem?_getD, List.getElem?_eq_getElem hi, Option.getD_some]
  have e : ((l.drop s).take k)[i - s] = l[i] := by
    rw [List.getElem_take, List.getElem_drop]
    congr 1
    omega
  rw [e4, ← e]
  exact List.getElem_mem hjk

/-- Decomposing a list around the slice (drop s).take k. -/
lemma slice_decomp (l : List α) (s k : Nat) :
    l = l.take s ++ ((l.drop s).take k) ++ ((l.drop s).drop k) := by
  rw [List.append_assoc, List.take_append_drop k (l.drop s), List.take_append_drop s l]

/-- An in-range getElem? is some of the getD at the same index. -/
lemma getElem?_eq_some_getD (l : List α) (i : Nat) (d : α) (hi : i < l.length) :
    l[i]? = some (l.getD i d) := by
  rw [List.getD_eq_getElem?_getD, List.getElem?_eq_getElem hi, Option.getD_some]

/-- get_prediction never surfaces an exception: it returns the located-mask
scores or the np.empty fallback, i.e. predOk. -/
lemma get_prediction_ok (M : MaskedLM) (uninit : Nat → List ℝ) (sent : String) :
    get_prediction M uninit sent = Except.ok (predOk M uninit sent) := by
  unfold get_prediction predOk
  cases firstMaskPos (M.encode sent) <;> rfl

/-- The scoring fold never fails and stacks one prediction row per sentence
after the given accumulator. -/
lemma anthro_fold (M : MaskedLM) (uninit : Nat → List ℝ) (rows : List String) :
    ∀ acc : List (List ℝ),
      rows.foldlM
        (fun acc x => (get_prediction M uninit x).map (fun nr => acc ++ [nr])) acc =
      Except.ok (acc ++ rows.map (predOk M uninit)) := by
  induction rows with
  | nil =>
    intro acc
    simp only [List.foldlM_nil, List.map_nil, List.append_nil]
    rfl
  | cons r rs ih =>
    intro acc
    rw [List.foldlM_cons, get_prediction_ok]
    show rs.foldlM
        (fun acc x => (get_prediction M uninit x).map (fun nr => acc ++ [nr]))
        (acc ++ [predOk M uninit r]) =
      Except.ok (acc ++ (r :: rs).map (predOk M uninit))
    rw [ih]
    simp

/-- get_anthroscore succeeds and returns the seed row followed by one
prediction row per masked sentence. -/
lemma get_anthroscore_ok (M : MaskedLM) (uninit : Nat → List ℝ) (rows : List String) :
    get_anthroscore M uninit rows =
      Except.ok (uninit terms.length :: rows.map (predOk M uninit)) := by
  unfold get_anthroscore
  rw [anthro_fold M uninit rows [uninit terms.length]]
  rfl

/-- The appended score at column position i is the rowScore of stacked row
i + 1, whenever that row exists. -/
lemma mainScores_getD (stack : List (List ℝ)) (i : Nat) (hi : i + 1 < stack.length) :
    (mainScores stack).getD i 0 = rowScore (stack.getD (i + 1) []) := by
  unfold mainScores
  rw [List.getD_eq_getElem?_getD, List.getElem?_map, List.getElem?_drop,
    Nat.add_comm 1 i, List.getElem?_eq_getElem hi]
  rw [List.getD_eq_getElem?_getD, List.getElem?_eq_getElem hi]
  rfl

/-- Lines 51-52: when maskPos + 256 overruns the sequence, the window is the
last 512 tokens. -/
lemma recenterWindow_eq_end (temp : List Nat) (maskPos : Nat)
    (h : maskPos + 256 > temp.length) (hL : 512 ≤ temp.length) :
    recenterWindow temp maskPos = (temp.drop (temp.length - 512)).take 512 := by
  unfold recenterWindow pySlice
  rw [if_pos h]
  have e1 : pyIndex temp.length (-512) = temp.length - 512 := by
    unfold pyIndex
    rw [if_pos (by norm_num)]
    omega
  have e2 : pyIndex temp.length (temp.length : Int) = temp.length := by
    unfold pyIndex
    rw [if_neg (by omega)]
    omega
  rw [e1, e2]
  have e3 : temp.length - (temp.length - 512) = 512 := by omega
  rw [e3]

/-- Lines 53-54: when maskPos + 256 fits and maskPos is at least 256, the
window is the symmetric slice of width 512 starting at maskPos - 256. -/
lemma recenterWindow_eq_mid (temp : List Nat) (maskPos : Nat)
    (h : ¬ maskPos + 256 > temp.length) (h2 : 256 ≤ maskPos) :
    recenterWindow temp maskPos = (temp.drop (maskPos - 256)).take 512 := by
  unfold recenterWindow pySlice
  rw [if_neg h]
  have e1 : pyIndex temp.length ((maskPos : Int) - 256) = maskPos - 256 := by
    unfold pyIndex
    rw [if_neg (by omega)]
    omega
  have e2 : pyIndex temp.length ((maskPos : Int) + 256) = maskPos + 256 := by
    unfold pyIndex
    rw [if_neg (by omega)]
    omega
  rw [e1, e2]
  have e3 : maskPos + 256 - (maskPos - 256) = 512 := by omega
  rw [e3]

/-! Claims. -/

/-- Claim C1 is false as stated: the fixed pronoun vocabulary of the source
(line 41) has 19 tokens, not 18, and the non-human tail (from position 15 on,
the slice the aggregation at lines 146-147 uses) has the 4 tokens it, its,
It, Its, not 3. -/
theorem C1_counterexample :
    terms.length = 19 ∧ terms.drop 15 = ["it", "its", "It", "Its"] ∧
    ¬ (terms.length = 18 ∧ (terms.take 15).length = 15 ∧ (terms.drop 15).length = 3) := by
  decide

/-- Claim C1 (amended): the fixed pronoun vocabulary contains exactly 19
tokens, partitioned by position into the first 15 human-referring tokens and
the remaining 4 non-human-referring tokens; for every run the human mass of
a stacked row is the sum of its first 15 entries and the non-human mass the
sum of the rest, and the appended score column applies exactly these two
sums to each row after the seed row. -/
theorem C1_amended_thm :
    terms.length = 19 ∧
    terms.take 15 = ["you", "we", "us", "he", "she", "her", "him", "You", "We",
      "Us", "He", "She", "Her", "I", "i"] ∧
    terms.drop 15 = ["it", "its", "It", "Its"] ∧
    (∀ v : List ℝ, humanSum v = (v.take 15).sum ∧ nonhumanSum v = (v.drop 15).sum ∧
      humanSum v + nonhumanSum v = v.sum) ∧
    (∀ (stack : List (List ℝ)) (i : Nat),
      (mainScores stack)[i]? = ((stack.drop 1)[i]?).map
        (fun v => Real.log ((v.take 15).sum) - Real.log ((v.drop 15).sum))) := by
  refine ⟨by decide, by decide, by decide, fun v => ⟨rfl, rfl, ?_⟩, fun stack i => ?_⟩
  · rw [humanSum, nonhumanSum, ← List.sum_append, List.take_append_drop]
  · rw [mainScores, List.getElem?_map]
    rfl

/-- Claim C2: the score appended for row i of the persisted table is the
natural log of the human-pronoun mass of its probability vector minus the
natural log of its non-human-pronoun mass; for vectors of the fixed length
with positive entries the score is positive when the human mass exceeds the
non-human mass, negative in the opposite case, and zero when the masses are
equal. -/
theorem C2_thm (stack : List (List ℝ)) (i : Nat) (hi : i + 1 < stack.length)
    (v : List ℝ) (hv : stack.getD (i + 1) [] = v)
    (hlen : v.length = 19) (hpos : ∀ x ∈ v, 0 < x) :
    (mainScores stack).getD i 0 = Real.log (humanSum v) - Real.log (nonhumanSum v) ∧
    (nonhumanSum v < humanSum v → 0 < (mainScores stack).getD i 0) ∧
    (humanSum v < nonhumanSum v → (mainScores stack).getD i 0 < 0) ∧
    (humanSum v = nonhumanSum v → (mainScores stack).getD i 0 = 0) := by
  have key : (mainScores stack).getD i 0 = rowScore v := by
    rw [mainScores_getD stack i hi, hv]
  have hhpos : 0 < humanSum v := by
    refine List.sum_pos _ (fun x hx => hpos x (List.mem_of_mem_take hx)) ?_
    intro hnil
    have hlt : (v.take 15).length = 15 := by
      rw [List.length_take]
      omega
    rw [hnil] at hlt
    simp at hlt
  have hnpos : 0 < nonhumanSum v := by
    refine List.sum_pos _ (fun x hx => hpos x (List.mem_of_mem_drop hx)) ?_
    intro hnil
    have hlt : (v.drop 15).length = 4 := by
      rw [List.length_drop]
      omega
    rw [hnil] at hlt
    simp at hlt
  refine ⟨by rw [key]; rfl, ?_, ?_, ?_⟩
  · intro hlt
    rw [key]
    have := Real.log_lt_log hnpos hlt
    unfold rowScore
    linarith
  · intro hlt
    rw [key]
    have := Real.log_lt_log hhpos hlt
    unfold rowScore
    linarith
  · intro heq
    rw [key]
    unfold rowScore
    rw [heq, sub_self]

/-- Witness for C2 at the concrete stack whose single scored row is the
all-ones vector of length 19: human mass 15, non-human mass 4, so the
appended score is log 15 - log 4 and is positive. -/
theorem C2_witness :
    (mainScores [[], List.replicate 19 (1 : ℝ)]).getD 0 0 =
      Real.log (humanSum (List.replicate 19 (1 : ℝ))) -
        Real.log (nonhumanSum (List.replicate 19 (1 : ℝ))) ∧
    0 < (mainScores [[], List.replicate 19 (1 : ℝ)]).getD 0 0 := by
  have hsum : humanSum (List.replicate 19 (1 : ℝ)) = 15 ∧
      nonhumanSum (List.replicate 19 (1 : ℝ)) = 4 := by
    constructor
    · rw [humanSum, List.take_replicate, List.sum_replicate]
      norm_num
    · rw [nonhumanSum, List.drop_replicate, List.sum_replicate]
      norm_num
  have h := C2_thm [[], List.replicate 19 (1 : ℝ)] 0 (by norm_num)
      (List.replicate 19 (1 : ℝ)) rfl (by simp)
      (fun x hx => by
        rw [List.mem_replicate] at hx
        rw [hx.2]
        norm_num)
  exact ⟨h.1, h.2.1 (by rw [hsum.1, hsum.2]; norm_num)⟩

/-- Claim C3: for a token sequence longer than the model window whose mask
position lies at or beyond index 512, the recentering step of lines 51-54
produces a window of exactly 512 tokens that is a contiguous slice of the
sequence (so it never exceeds the available tokens) and contains the mask
token; and the per-sentence procedure get_prediction never surfaces an
exception: it either locates the mask and scores it, or returns the
np.empty fallback of the pronoun-list length. -/
theorem C3_thm (temp : List Nat) (maskPos : Nat)
    (hout : 512 ≤ maskPos) (hlen : maskPos < temp.length)
    (hmask : temp.getD maskPos 0 = maskTokenId) :
    (recenterWindow temp maskPos).length = 512 ∧
    maskTokenId ∈ recenterWindow temp maskPos ∧
    (∃ a b, temp = a ++ recenterWindow temp maskPos ++ b) ∧
    (∀ (M : MaskedLM) (uninit : Nat → List ℝ) (sent : String),
      ∃ v, get_prediction M uninit sent = Except.ok v ∧
        (v = uninit terms.length ∨
          ∃ pos, firstMaskPos (M.encode sent) = some pos ∧
            v = scoresAt M (M.encode sent) pos)) := by
  have hL : 513 ≤ temp.length := by omega
  have main3 : (recenterWindow temp maskPos).length = 512 ∧
      maskTokenId ∈ recenterWindow temp maskPos ∧
      (∃ a b, temp = a ++ recenterWindow temp maskPos ++ b) := by
    by_cases hc : maskPos + 256 > temp.length
    · rw [recenterWindow_eq_end temp maskPos hc (by omega)]
      refine ⟨?_, ?_, ?_⟩
      · rw [List.length_take, List.length_drop]
        omega
      · rw [← hmask]
        exact getD_mem_drop_take temp (temp.length - 512) 512 maskPos 0 hlen
          (by omega) (by omega)
      · exact ⟨temp.take (temp.length - 512),
          (temp.drop (temp.length - 512)).drop 512,
          slice_decomp temp (temp.length - 512) 512⟩
    · rw [recenterWindow_eq_mid temp maskPos hc (by omega)]
      refine ⟨?_, ?_, ?_⟩
      · rw [List.length_take, List.length_drop]
        omega
      · rw [← hmask]
        exact getD_mem_drop_take temp (maskPos - 256) 512 maskPos 0 hlen
          (by omega) (by omega)
      · exact ⟨temp.take (maskPos - 256), (temp.drop (maskPos - 256)).drop 512,
          slice_decomp temp (maskPos - 256) 512⟩
  refine ⟨main3.1, main3.2.1, main3.2.2, ?_⟩
  intro M uninit sent
  cases h : firstMaskPos (M.encode sent) with
  | none =>
    refine ⟨uninit terms.length, ?_, Or.inl rfl⟩
    rw [get_prediction_ok]
    unfold predOk
    rw [h]
  | some pos =>
    refine ⟨scoresAt M (M.encode sent) pos, ?_, Or.inr ⟨pos, rfl, rfl⟩⟩
    rw [get_prediction_ok]
    unfold predOk
    rw [h]

/-- The concrete 600-token sequence used by the C3 witness: the mask sits at
position 550, beyond the 512-token model window. -/
def tempW : List Nat := List.replicate 550 5 ++ maskTokenId :: List.replicate 49 5

/-- Witness for C3 at tempW with mask position 550: the recentering window
has exactly 512 tokens and contains the mask token. -/
theorem C3_witness :
    (recenterWindow tempW 550).length = 512 ∧ maskTokenId ∈ recenterWindow tempW 550 := by
  have hlen : (550 : Nat) < tempW.length := by
    rw [tempW, List.length_append, List.length_replicate, List.length_cons,
      List.length_replicate]
    omega
  have hmask : tempW.getD 550 0 = maskTokenId := by
    rw [tempW, List.getD_eq_getElem?_getD,
      List.getElem?_append_right (by rw [List.length_replicate])]
    rw [List.length_replicate]
    have e : (550 : Nat) - 550 = 0 := by omega
    rw [e, List.getElem?_cons_zero, Option.getD_some]
  have h := C3_thm tempW 550 (by norm_num) hlen hmask
  exact ⟨h.1, h.2.1⟩

/-- The concrete parser output used for claim C4: one sentence whose noun
chunk text occurs twice in the sentence. -/
def nlpC4 : String → Doc :=
  fun _ => ⟨[⟨"the system likes the system", [⟨"the system", "nsubj", 429, "like"⟩]⟩]⟩

/-- The concrete input row list used for claim C4. -/
def rowsC4 : List Row := [⟨some "the system likes the system", "id1"⟩]

/-- The extraction run used for claim C4. -/
def extractC4 : List SentenceMatch :=
  parse_sentences_from_file nlpC4 ["system"] "in.csv" "id" rowsC4

/-- Claim C4 is false as stated: on a sentence containing its matched noun
phrase twice, the emitted masked sentence has both occurrences replaced
(Python str.replace replaces every occurrence), while first-occurrence
substitution would leave the second occurrence intact. -/
theorem C4_counterexample :
    extractC4.map (fun r => r.masked_sentence) = ["<mask> likes <mask>"] ∧
    specReplaceFirst "the system likes the system" "the system" maskToken =
      "<mask> likes the system" ∧
    extractC4.map (fun r => r.masked_sentence) ≠
      extractC4.map (fun r => specReplaceFirst r.sentence r.original_noun maskToken) := by
  decide

/-- Claim C4 (amended): for every emitted Sentence Match, the masked
sentence is the original sentence text with EVERY occurrence of the matched
noun-phrase string replaced by the mask placeholder (direct string
substitution via Python str.replace, which replaces all occurrences, not
only the first). -/
theorem C4_amended_thm (nlp : String → Doc) (entities : List String)
    (inputFilename idColumnName : String) (rows : List Row) (r : SentenceMatch)
    (hr : r ∈ parse_sentences_from_file nlp entities inputFilename idColumnName rows) :
    ∃ chunkText : String, r.original_noun = pyLower chunkText ∧
      r.masked_sentence = pyReplace r.sentence chunkText maskToken := by
  unfold parse_sentences_from_file at hr
  rw [List.mem_flatten] at hr
  obtain ⟨l, hl, hrl⟩ := hr
  rw [List.mem_map] at hl
  obtain ⟨row, _, rfl⟩ := hl
  unfold rowRecords at hrl
  cases hrt : row.text with
  | none =>
    rw [hrt] at hrl
    simp at hrl
  | some t =>
    rw [hrt] at hrl
    dsimp only at hrl
    by_cases hst : pyTruthyStrip t
    · rw [if_pos hst, List.mem_flatten] at hrl
      obtain ⟨l2, hl2, hrl2⟩ := hrl
      rw [List.mem_map] at hl2
      obtain ⟨s, _, rfl⟩ := hl2
      unfold sentRecords at hrl2
      rw [List.mem_flatten] at hrl2
      obtain ⟨l3, hl3, hrl3⟩ := hrl2
      rw [List.mem_map] at hl3
      obtain ⟨c, _, rfl⟩ := hl3
      unfold chunkRecords at hrl3
      by_cases hdep : c.rootDepStr = "nsubj" ∨ c.rootDepStr = "dobj"
      · rw [if_pos hdep, List.mem_map] at hrl3
        obtain ⟨e, _, rfl⟩ := hrl3
        exact ⟨c.text, rfl, rfl⟩
      · rw [if_neg hdep] at hrl3
        simp at hrl3
    · rw [if_neg hst] at hrl
      simp at hrl

/-- The record emitted by the C4 extraction run. -/
def matchC4 : SentenceMatch :=
  mkMatch "the system likes the system" "id1" ⟨"the system", "nsubj", 429, "like"⟩ "system"

/-- Witness for C4 (amended) at the concrete extraction run: the emitted
record's masked sentence is its sentence with every occurrence of the
matched noun phrase replaced. -/
theorem C4_witness :
    ∃ chunkText : String, matchC4.original_noun = pyLower chunkText ∧
      matchC4.masked_sentence = pyReplace matchC4.sentence chunkText maskToken :=
  C4_amended_thm nlpC4 ["system"] "in.csv" "id" rowsC4 matchC4 (by decide)

/-- Claim C5: when the mask token is absent from the encoding (so the retry
of the except branch cannot locate it either), get_prediction returns, with
no exception, the np.empty fallback whose length is the pronoun-list length,
and get_anthroscore still succeeds on the whole run, stacking one row per
sentence, with that row present at stacked position i + 1. -/
theorem C5_thm (M : MaskedLM) (uninit : Nat → List ℝ)
    (hU : ∀ n, (uninit n).length = n) (rows : List String) (i : Nat)
    (hi : i < rows.length)
    (hmask : firstMaskPos (M.encode (rows.getD i "")) = none) :
    ∃ vs, get_anthroscore M uninit rows = Except.ok vs ∧
      vs.length = rows.length + 1 ∧
      vs[i + 1]? = some (uninit terms.length) ∧
      (uninit terms.length).length = terms.length := by
  refine ⟨_, get_anthroscore_ok M uninit rows, by simp, ?_, hU _⟩
  rw [List.getElem?_cons_succ, List.getElem?_map, List.getElem?_eq_getElem hi]
  have hg : rows.getD i "" = rows[i] := by
    rw [List.getD_eq_getElem?_getD, List.getElem?_eq_getElem hi, Option.getD_some]
  rw [hg] at hmask
  rw [Option.map_some']
  unfold predOk
  rw [hmask]

/-- The trivial model used by the C5 witness: an encoder that never emits
the mask token. -/
def lmW : MaskedLM :=
  { encode := fun _ => [1, 2, 3], vocabId := fun _ => 0, probAt := fun _ _ _ => 0 }

/-- The np.empty model used by witnesses: a zero vector of the requested
length. -/
def uninitW : Nat → List ℝ := fun n => List.replicate n 0

/-- Witness for C5 at a one-row run whose only sentence has no mask token in
its encoding: the run succeeds and stacks the fallback row. -/
theorem C5_witness :
    ∃ vs, get_anthroscore lmW uninitW ["a"] = Except.ok vs ∧
      vs.length = ["a"].length + 1 ∧
      vs[0 + 1]? = some (uninitW terms.length) ∧
      (uninitW terms.length).length = terms.length :=
  C5_thm lmW uninitW (fun n => by simp [uninitW]) ["a"] 0 (by decide) (by decide)

/-- The concrete parser output used for claim C6: one sentence whose noun
chunk contains the entity bot. -/
def nlpC6 : String → Doc :=
  fun _ => ⟨[⟨"The bot fails", [⟨"The bot", "nsubj", 429, "fail"⟩]⟩]⟩

/-- Claim C6: the code contradicts it on entity bot.  strip removes the
character set consisting of backslash and b from both ends of the pattern,
so the recorded original_term for entity bot is ot, not bot; for entities
that neither start nor end with such a character (system, model) the
recorded term does equal the entity. -/
theorem C6_thm :
    originalTermOf "bot" = "ot" ∧ originalTermOf "bot" ≠ "bot" ∧
    (parse_sentences_from_file nlpC6 ["bot"] "in.csv" "id"
        [⟨some "The bot fails", "id1"⟩]).map (fun r => r.original_term) = ["ot"] ∧
    originalTermOf "system" = "system" ∧ originalTermOf "model" = "model" := by
  decide

/-- Claim C7: a noun chunk whose dependency role is nsubj or dobj yields at
least one Sentence Match exactly when some entity of the list matches its
lower-cased text as a whole word under the word-boundary regex, and it
yields exactly one match per matching entity pattern. -/
theorem C7_thm (entities : List String) (sentText textId : String) (c : NounChunk)
    (hdep : c.rootDepStr = "nsubj" ∨ c.rootDepStr = "dobj") :
    (chunkRecords entities sentText textId c ≠ [] ↔
      ∃ e ∈ entities, reWordMatch e (pyLower c.text) = true) ∧
    (chunkRecords entities sentText textId c).length =
      (entities.filter (fun e => chunkMatches e c)).length := by
  unfold chunkRecords
  rw [if_pos hdep]
  constructor
  · rw [Ne, List.map_eq_nil_iff, List.filter_eq_nil_iff]
    push_neg
    simp [chunkMatches]
  · rw [List.length_map]

/-- Witness for C7: the chunk The system with role nsubj matches entity
system as a whole word, so a record is emitted; the chunk the ecosystem
contains system only inside a longer word, so no record is emitted. -/
theorem C7_witness :
    chunkRecords ["system"] "s" "t" ⟨"The system", "nsubj", 1, "x"⟩ ≠ [] ∧
    chunkRecords ["system"] "s" "t" ⟨"the ecosystem", "nsubj", 1, "x"⟩ = [] := by
  constructor
  · exact (C7_thm ["system"] "s" "t" ⟨"The system", "nsubj", 1, "x"⟩
      (Or.inl rfl)).1.mpr ⟨"system", by decide, by decide⟩
  · exact not_not.mp
      (mt (C7_thm ["system"] "s" "t" ⟨"the ecosystem", "nsubj", 1, "x"⟩
        (Or.inl rfl)).1.mp (by decide))

/-- Claim C8: extraction is deterministic.  Two runs over the same input
table, entity list and column names, with parsers that agree on every text
cell of the table, produce identical output tables row for row. -/
theorem C8_thm (nlpA nlpB : String → Doc) (entities : List String)
    (inputFilename idColumnName : String) (rows : List Row)
    (hagree : ∀ r ∈ rows, ∀ t, r.text = some t → nlpA t = nlpB t) :
    parse_sentences_from_file nlpA entities inputFilename idColumnName rows =
      parse_sentences_from_file nlpB entities inputFilename idColumnName rows := by
  unfold parse_sentences_from_file
  induction rows with
  | nil => rfl
  | cons r rs ih =>
    simp only [List.map_cons, List.flatten_cons]
    have hrow : rowRecords nlpA entities inputFilename idColumnName r =
        rowRecords nlpB entities inputFilename idColumnName r := by
      unfold rowRecords
      cases hrt : r.text with
      | none => rfl
      | some t =>
        dsimp only
        rw [hagree r (List.mem_cons_self r rs) t hrt]
    rw [hrow, ih (fun r' hr' t ht => hagree r' (List.mem_cons_of_mem r hr') t ht)]

/-- Witness for C8 at a concrete one-row table and a concrete parser used
for both runs. -/
theorem C8_witness :
    parse_sentences_from_file (fun _ => ⟨[]⟩) ["e"] "f.csv" "id" [⟨some "x", "i"⟩] =
      parse_sentences_from_file (fun _ => ⟨[]⟩) ["e"] "f.csv" "id" [⟨some "x", "i"⟩] :=
  C8_thm (fun _ => ⟨[]⟩) (fun _ => ⟨[]⟩) ["e"] "f.csv" "id" [⟨some "x", "i"⟩]
    (fun _ _ _ _ => rfl)

/-- Claim C9: the stacked matrix starts with the np.empty seed row of the
pronoun-list length and holds one prediction row per masked sentence, so it
has rows.length + 1 rows; the aggregation drops exactly the seed (slicing
from index 1), so the appended anthroscore column has exactly one entry per
Sentence Match row, and its entry at position i is the score of the
probability vector predicted for the masked sentence at position i. -/
theorem C9_thm (M : MaskedLM) (uninit : Nat → List ℝ) (rows : List String) :
    ∃ vs, get_anthroscore M uninit rows = Except.ok vs ∧
      vs.length = rows.length + 1 ∧
      vs[0]? = some (uninit terms.length) ∧
      (mainScores vs).length = rows.length ∧
      (∀ i : Nat, (mainScores vs)[i]? =
        (rows[i]?).map (fun s => rowScore (predOk M uninit s))) := by
  refine ⟨_, get_anthroscore_ok M uninit rows, by simp,
    by rw [List.getElem?_cons_zero], by simp [mainScores], ?_⟩
  intro i
  unfold mainScores
  rw [List.drop_one, List.tail_cons, List.getElem?_map, List.getElem?_map,
    Option.map_map]
  rfl

/-- Claim C10: with the argparse default, omitting --output_file yields the
empty string, which is not None, so the derived-name fallback never runs and
the .csv assertion fails for every input; a run passes the checks of main
exactly when an output path was explicitly supplied and both the input and
that output path end in .csv. -/
theorem C10_thm :
    (∀ input_file : String,
      mainOutputPath input_file none = Except.error PyErr.assertionError) ∧
    (∀ (input_file : String) (cliOutput : Option String) (out : String),
      mainOutputPath input_file cliOutput = Except.ok out →
      sliceLast4 input_file = ".csv" ∧
      ∃ s, cliOutput = some s ∧ s = out ∧ sliceLast4 out = ".csv") := by
  constructor
  · intro i
    show (if sliceLast4 i = ".csv" then
        if sliceLast4 "" = ".csv" then Except.ok "" else Except.error PyErr.assertionError
      else Except.error PyErr.assertionError) = Except.error PyErr.assertionError
    by_cases h : sliceLast4 i = ".csv"
    · rw [if_pos h, if_neg (by decide)]
    · rw [if_neg h]
  · intro i cli out h
    cases cli with
    | none =>
      have h' : (if sliceLast4 i = ".csv" then
          if sliceLast4 "" = ".csv" then Except.ok "" else Except.error PyErr.assertionError
        else Except.error PyErr.assertionError) = Except.ok out := h
      by_cases h1 : sliceLast4 i = ".csv"
      · rw [if_pos h1, if_neg (by decide)] at h'
        exact absurd h' (by simp)
      · rw [if_neg h1] at h'
        exact absurd h' (by simp)
    | some s =>
      have h' : (if sliceLast4 i = ".csv" then
          if sliceLast4 s = ".csv" then Except.ok s else Except.error PyErr.assertionError
        else Except.error PyErr.assertionError) = Except.ok out := h
      by_cases h1 : sliceLast4 i = ".csv"
      · by_cases h2 : sliceLast4 s = ".csv"
        · rw [if_pos h1, if_pos h2] at h'
          refine ⟨h1, s, rfl, ?_, ?_⟩
          · exact Except.ok.inj h'
          · rw [← Except.ok.inj h']
            exact h2
        · rw [if_pos h1, if_neg h2] at h'
          exact absurd h' (by simp)
      · rw [if_neg h1] at h'
        exact absurd h' (by simp)

/-- Witness for C10: a .csv input with the output argument omitted fails the
assertion, and the same input with an explicit .csv output passes. -/
theorem C10_witness :
    mainOutputPath "a.csv" none = Except.error PyErr.assertionError ∧
    (sliceLast4 "a.csv" = ".csv" ∧
      ∃ s, (some "b.csv" : Option String) = some s ∧ s = "b.csv" ∧
        sliceLast4 "b.csv" = ".csv") :=
  ⟨C10_thm.1 "a.csv", C10_thm.2 "a.csv" (some "b.csv") "b.csv" rfl⟩

end AnthroScore
